import Mathlib

/-
Verification of the crypto-profiler repository.

Shallow embedding of:
  * src/internal/validator/contract.go      (data model)
  * src/internal/validator/investigator.go  (risk investigator)
  * the watchlist engine service (sync loop, OFAC XML ingestion,
    sqlite-backed sanction store, /check HTTP handler)

Modelling conventions:
  * Go float64 values are modelled by exact rationals.  Every arithmetic
    operation the scoring code performs on reachable values (integer
    offsets, clamping to [0,100], weighting by 0.5/0.3/0.2, rounding to
    two decimals) is exact in binary64, so the rational model coincides
    with the float semantics on this program.
  * Wall-clock instants are rationals measured in hours, so that Go's
    time.Since(t).Hours() becomes the subtraction (now - t).
  * The HTTP calls made by the code are modelled by passing their result
    in as data (a connection failure is an error value), which is the
    standard embedding of an effectful call.
  * sqlite tables are modelled as lists of rows; INSERT OR REPLACE on the
    primary key is an upsert on the list.
-/

namespace CryptoProfiler

/-! ## Data model (src/internal/validator/contract.go) -/

/-- Go struct RiskCategory: fraud / reputation / lending scores. -/
structure RiskCategory where
  fraud : ℚ
  reputation : ℚ
  lending : ℚ
deriving DecidableEq, Repr

/-- Go struct RiskReason: one explainable scoring adjustment. -/
structure RiskReason where
  category : String
  description : String
  offset : ℚ
deriving DecidableEq, Repr

/-- Go struct Transaction.  The Go field names are from/to; from is a
Lean keyword so the fields are named fromAddr/toAddr here. -/
structure Transaction where
  timeStamp : Int
  fromAddr : String
  toAddr : String
  value : String
  hash : String
deriving DecidableEq, Repr

/-- Go struct WalletProfile.  Timestamps are rationals in hours
(see the modelling conventions above); FirstSeen/LastSeen are pointers
in Go, hence Option here. -/
structure WalletProfile where
  address : String
  network : String
  isValid : Bool
  validationDetails : String
  isActive : Bool
  balance : String
  txCount : Int
  firstSeen : Option ℚ
  lastSeen : Option ℚ
  riskScore : ℚ
  riskGrade : String
  riskBreakdown : RiskCategory
  riskReasons : List RiskReason
deriving DecidableEq, Repr

/-- Go struct EngineResponse: body of a successful /check call. -/
structure EngineResponse where
  sanctioned : Bool
  currency : String
  source : String
deriving DecidableEq, Repr

/-! ## String helpers

Go's strings package functions are re-implemented here over the
character list of a String (the core library versions do not reduce in
the kernel).  The data handled by this program is ASCII, on which these
agree with Go's Unicode-aware versions. -/

/-- Go strings.ToLower (ASCII range, which covers the addresses and
labels this program compares). -/
def lowerStr (s : String) : String :=
  ⟨s.data.map Char.toLower⟩

/-- Substring search on character lists: pat occurs somewhere in the
list. -/
def containsSeq (pat : List Char) : List Char → Bool
  | [] => pat.isPrefixOf []
  | c :: rest => pat.isPrefixOf (c :: rest) || containsSeq pat rest

/-- Go strings.Contains. -/
def goContains (s pat : String) : Bool :=
  containsSeq pat.data s.data

/-- Split a character list on a single separator character, keeping
empty pieces — the behaviour of Go strings.Split for a one-character
separator. -/
def splitChar (c : Char) : List Char → List (List Char)
  | [] => [[]]
  | x :: xs =>
    if x = c then [] :: splitChar c xs
    else
      match splitChar c xs with
      | [] => [[x]]
      | h :: t => (x :: h) :: t

/-- Go strings.TrimSpace: drop whitespace from both ends. -/
def goTrim (s : String) : String :=
  ⟨((s.data.dropWhile Char.isWhitespace).reverse.dropWhile Char.isWhitespace).reverse⟩

/-- Go len(s): the UTF-8 byte length of the string. -/
def goLen (s : String) : Nat :=
  s.data.foldl (fun n c => n + c.utf8Size) 0

/-! ## Investigator (src/internal/validator/investigator.go) -/

/-- Go map knownThreats: the single hardcoded known-threat address. -/
def knownThreats (addr : String) : Option String :=
  if addr = "0xd90e2f925da726b50c4ed8d0fb90ad053324f31b" then
    some "Tornado Cash Router"
  else
    none

/-- Go func clamp(val, min, max float64) float64. -/
def clamp (val min max : ℚ) : ℚ :=
  if val < min then min else if val > max then max else val

/-- Floor of a rational, computed on the (reduced) numerator and
denominator with flooring integer division. -/
def ratFloor (q : ℚ) : ℤ :=
  q.num.fdiv q.den

/-- Go's math.Round: nearest integer, halves rounded away from zero. -/
def goRound (q : ℚ) : ℤ :=
  if 0 ≤ q then ratFloor (q + 1/2) else -ratFloor (-q + 1/2)

/-- Go's math.Round(x*100)/100: rounding to two decimal places. -/
def round2 (q : ℚ) : ℚ :=
  (goRound (q * 100) : ℚ) / 100

/-- The running scoring state inside Investigate: the three mutable
category accumulators plus the append-only reasons slice. -/
structure ScoreState where
  fraud : ℚ
  rep : ℚ
  lend : ℚ
  reasons : List RiskReason
deriving DecidableEq, Repr

/-- The addRisk closure in Investigate: append the reason, then bump the
matching category accumulator (the switch has no SYSTEM case, so a
SYSTEM reason changes no score). -/
def addRisk (category description : String) (offset : ℚ) (s : ScoreState) : ScoreState :=
  let s' := { s with reasons := s.reasons ++ [⟨category, description, offset⟩] }
  if category = "FRAUD" then { s' with fraud := s'.fraud + offset }
  else if category = "REPUTATION" then { s' with rep := s'.rep + offset }
  else if category = "LENDING" then { s' with lend := s'.lend + offset }
  else s'

/-- The zero-weight SYSTEM reason recorded when the watchlist engine
call fails (fail-open branch of Investigate). -/
def sysReason : RiskReason :=
  ⟨"SYSTEM", "⚠️ Watchlist Engine Unavailable - Sanctions Check Skipped", 0⟩

/-- Age heuristic of Investigate: age over a year gives REPUTATION -10,
age under 24 hours gives FRAUD +35. -/
def ageCheck (now : ℚ) (firstSeen : Option ℚ) (s : ScoreState) : ScoreState :=
  match firstSeen with
  | none => s
  | some fs =>
    let hoursOld := now - fs
    if hoursOld > 24 * 365 then
      addRisk "REPUTATION" "Established History (>1 Year)" (-10) s
    else if hoursOld < 24 then
      addRisk "FRAUD" "Freshly Created Wallet (<24h)" 35 s
    else s

/-- The counterparty of a transaction: whichever of from/to is not the
profile's own address (strings.EqualFold comparison), lowercased as the
Go code does before the knownThreats lookup. -/
def counterparty (selfAddr : String) (tx : Transaction) : String :=
  if lowerStr tx.fromAddr = lowerStr selfAddr then lowerStr tx.toAddr
  else lowerStr tx.fromAddr

/-- The interactions loop of Investigate: walk the transactions carrying
the directThreat flag; the first known-threat counterparty adds a single
FRAUD +55 reason, later matches are ignored. -/
def threatFold (address : String) : List Transaction → Bool → ScoreState → Bool × ScoreState
  | [], directThreat, s => (directThreat, s)
  | tx :: rest, directThreat, s =>
    match knownThreats (counterparty address tx) with
    | some label =>
      if directThreat then threatFold address rest directThreat s
      else threatFold address rest true
        (addRisk "FRAUD" ("Direct Interaction with " ++ label) 55 s)
    | none => threatFold address rest directThreat s

/-- Velocity heuristic of Investigate: with a positive tx count and a
known first-seen time, more than 20 tx/hour (elapsed hours floored at 1)
adds FRAUD +25. -/
def velocityCheck (now : ℚ) (txCount : Int) (firstSeen : Option ℚ) (s : ScoreState) : ScoreState :=
  if txCount > 0 then
    match firstSeen with
    | some fs =>
      let hoursActive := now - fs
      let hoursActive' := if hoursActive < 1 then 1 else hoursActive
      let txPerHour := (txCount : ℚ) / hoursActive'
      if txPerHour > 20 then
        addRisk "FRAUD" "High Velocity Behavior (Potential Bot)" 25 s
      else s
    | none => s
  else s

/-- The heuristic section of Investigate (steps 2-4), in source order:
age check, interactions check, velocity check.  The profile fields the
Go code reads are passed explicitly. -/
def heuristics (now : ℚ) (address : String) (txCount : Int) (firstSeen : Option ℚ)
    (txs : List Transaction) (s : ScoreState) : ScoreState :=
  velocityCheck now txCount firstSeen
    (threatFold address txs false (ageCheck now firstSeen s)).2

/-- The grading if-chain of Investigate (the initial "UNKNOWN" value is
always overwritten because the branches are exhaustive). -/
def gradeOf (combinedRisk : ℚ) : String :=
  if combinedRisk < 10 then "EXCELLENT (Safe)"
  else if combinedRisk < 35 then "LOW (Neutral)"
  else if combinedRisk < 60 then "WARNING (Elevated)"
  else "FAILING (High Risk)"

/-- Section 3 of Investigate (FINALIZE SCORE): clamp each category to
[0,100], combine with weights 0.5/0.3/0.2, grade, round and write the
risk fields onto the profile. -/
def finalize (profile : WalletProfile) (s : ScoreState) : WalletProfile :=
  let fraudScore := clamp s.fraud 0 100
  let repScore := clamp s.rep 0 100
  let lendScore := clamp s.lend 0 100
  let combinedRisk := fraudScore * 0.5 + repScore * 0.3 + lendScore * 0.2
  { profile with
    riskScore := round2 combinedRisk
    riskGrade := gradeOf combinedRisk
    riskBreakdown := ⟨round2 fraudScore, round2 repScore, round2 lendScore⟩
    riskReasons := s.reasons }

/-- Go func Investigate.  The CheckWatchlist HTTP call is passed in as
data: Except.error is any failed call (connection error, non-200,
decode error), Except.ok is a decoded EngineResponse. -/
def Investigate (now : ℚ) (engine : Except Unit EngineResponse)
    (profile : WalletProfile) (txs : List Transaction) : WalletProfile :=
  match engine with
  | Except.error _ =>
    let profile' := { profile with
      validationDetails := profile.validationDetails ++ " | [Warning: Sanctions DB Offline]" }
    finalize profile'
      (heuristics now profile'.address profile'.txCount profile'.firstSeen txs
        ⟨0, 0, 0, [sysReason]⟩)
  | Except.ok resp =>
    if resp.sanctioned then
      { profile with
        riskScore := 100
        riskGrade := "CRITICAL (Sanctioned)"
        riskBreakdown := ⟨100, 100, 100⟩
        riskReasons :=
          [⟨"FRAUD", "CRITICAL: " ++ resp.source ++ " Sanctioned Address (" ++ resp.currency ++ ")", 100⟩,
           ⟨"REPUTATION", "Government Blacklisted Entity", 100⟩,
           ⟨"LENDING", "Prohibited: Federal Sanctions", 100⟩] }
    else
      finalize profile
        (heuristics now profile.address profile.txCount profile.firstSeen txs ⟨0, 0, 0, []⟩)

/-! ## Watchlist engine (cmd/engine/main.go): store, sync loop, handler -/

/-- Row of the sanctioned_addresses sqlite table (spec type
SanctionEntry).  updated_at is a rational instant. -/
structure SanctionEntry where
  address : String
  currency : String
  source : String
  updatedAt : ℚ
deriving DecidableEq, Repr

/-- The engine's persistent state: the sanctioned_addresses table plus
the single metadata row keyed last_modified (none when the row is
absent, as on first start). -/
structure EngineState where
  entries : List SanctionEntry
  lastModified : Option String
deriving DecidableEq, Repr

/-- INSERT OR REPLACE on the address primary key: replace the existing
row for that address, or append a new row. -/
def upsert (es : List SanctionEntry) (e : SanctionEntry) : List SanctionEntry :=
  if es.any (fun x => x.address = e.address) then
    es.map (fun x => if x.address = e.address then e else x)
  else es ++ [e]

/-- Lookup in a Go map modelled as an association list (first binding
wins; the code never inserts a duplicate key). -/
def mapLookup (m : List (String × String)) (k : String) : Option String :=
  (m.find? (fun p => p.1 = k)).map (fun p => p.2)

/-- The hardcoded cryptoTypeMap seed in downloadAndParseOFAC. -/
def seedCryptoTypeMap : List (String × String) :=
  [("344", "XBT"), ("345", "ETH"), ("686", "ZEC"), ("687", "DASH"),
   ("688", "BTG"), ("689", "ETC"), ("706", "BSV"), ("726", "BCH"),
   ("746", "XVG"), ("992", "TRX"), ("998", "USDC"), ("1007", "ARB"),
   ("1008", "BSC"), ("1167", "SOL"), ("573", "XMR"), ("572", "LTC")]

/-! XML records decoded by the parser (the xml struct tags in the Go
source). -/

/-- Reference record FeatureTypeValue: ID attribute plus chardata. -/
structure FeatureTypeValue where
  id : String
  value : String
deriving DecidableEq, Repr

/-- VersionDetail chardata. -/
structure VersionDetail where
  value : String
deriving DecidableEq, Repr

/-- FeatureVersion: list of VersionDetail children. -/
structure FeatureVersion where
  versionDetail : List VersionDetail
deriving DecidableEq, Repr

/-- Feature: FeatureTypeID attribute plus FeatureVersion children. -/
structure Feature where
  featureTypeID : String
  version : List FeatureVersion
deriving DecidableEq, Repr

/-- Profile element of a DistinctParty. -/
structure Profile where
  feature : List Feature
deriving DecidableEq, Repr

/-- DistinctParty: one sanctioned party record. -/
structure DistinctParty where
  profile : List Profile
deriving DecidableEq, Repr

/-- One relevant event of the forward-only token stream: a start element
the loop inspects, together with what DecodeElement produced for it
(none models a per-record decode failure, which the code skips with
continue).  Tokens of any other element are .other.  The stream ending
— cleanly, truncated, or with a decoder error — is modelled by the end
of the list, since the code breaks on a nil token in every such case. -/
inductive XmlTok where
  | featureTypeValue (d : Option FeatureTypeValue)
  | distinctParty (d : Option DistinctParty)
  | other
deriving DecidableEq, Repr

/-- STEP 1 of the parse loop: dynamic currency learning from a decoded
FeatureTypeValue definition record.  When the label contains
"Digital Currency Address", the ticker is TrimSpace(Split(label,"-")[1])
(or "UNKNOWN" when the label has no "-"), and the map is extended only
when the identifier is not already present. -/
def learnStep (m : List (String × String)) (ft : FeatureTypeValue) : List (String × String) :=
  if goContains ft.value "Digital Currency Address" then
    let parts := splitChar '-' ft.value.data
    let currency := match parts with
      | _ :: second :: _ => goTrim ⟨second⟩
      | _ => "UNKNOWN"
    if (mapLookup m ft.id).isSome then m else m ++ [(ft.id, currency)]
  else m

/-- STEP 2 of the parse loop, innermost part: for one Feature whose
FeatureTypeID resolves in the currency map, upsert every trimmed
VersionDetail value longer than 10 characters. -/
def extractFeature (now : ℚ) (m : List (String × String))
    (es : List SanctionEntry) (f : Feature) : List SanctionEntry :=
  match mapLookup m f.featureTypeID with
  | none => es
  | some currency =>
    f.version.foldl (fun es v =>
      v.versionDetail.foldl (fun es d =>
        let addr := goTrim d.value
        if goLen addr > 10 then upsert es ⟨addr, currency, "OFAC", now⟩ else es) es) es

/-- STEP 2 of the parse loop: scan one decoded DistinctParty. -/
def extractParty (now : ℚ) (m : List (String × String))
    (es : List SanctionEntry) (p : DistinctParty) : List SanctionEntry :=
  p.profile.foldl (fun es profile =>
    profile.feature.foldl (fun es f => extractFeature now m es f) es) es

/-- One iteration of the token loop of downloadAndParseOFAC, acting on
the (currency map, pending table rows) pair.  Decode failures are
skipped (continue). -/
def procTok (now : ℚ) (st : List (String × String) × List SanctionEntry)
    (t : XmlTok) : List (String × String) × List SanctionEntry :=
  match t with
  | XmlTok.featureTypeValue none => st
  | XmlTok.featureTypeValue (some ft) => (learnStep st.1 ft, st.2)
  | XmlTok.distinctParty none => st
  | XmlTok.distinctParty (some p) => (st.1, extractParty now st.1 st.2 p)
  | XmlTok.other => st

/-- An HTTP GET result for the feed: status code, Last-Modified header
value ("" when absent, as Header.Get returns) and the decoded token
stream of the body. -/
structure HttpResponse where
  status : Nat
  lastModified : String
  body : List XmlTok
deriving DecidableEq, Repr

/-- Outcome of http.Get: a connection error, or a response (of any
status — the sync code never reads the status code). -/
inductive GetResult where
  | connError
  | resp (r : HttpResponse)
deriving DecidableEq, Repr

/-- Go func downloadAndParseOFAC, with the GET outcome passed in as
data.  Only a connection error returns early (before the transaction
starts); otherwise the whole token stream is processed inside one
transaction and the transaction is committed, writing the accumulated
upserts and the metadata row last_modified from the response header.
The response status is never inspected. -/
def downloadAndParseOFAC (now : ℚ) (st : EngineState) (g : GetResult) :
    Except Unit EngineState :=
  match g with
  | GetResult.connError => Except.error ()
  | GetResult.resp r =>
    let fin := r.body.foldl (procTok now) (seedCryptoTypeMap, st.entries)
    Except.ok ⟨fin.2, some r.lastModified⟩

/-- Go func shouldUpdate: read the stored last_modified (Scan leaves ""
when the row is absent), HEAD the feed (none = network error, fail
open), and report stale when the markers differ. -/
def shouldUpdate (st : EngineState) (head : Option String) : Bool :=
  match head with
  | none => true
  | some remoteLastMod => st.lastModified.getD "" != remoteLastMod

/-- One iteration of startSyncLoop: when shouldUpdate reports stale, run
the download (on failure the state is unchanged); otherwise do nothing.
The Bool records whether a download was started. -/
def refreshCycle (now : ℚ) (st : EngineState) (head : Option String)
    (g : GetResult) : EngineState × Bool :=
  if shouldUpdate st head then
    match downloadAndParseOFAC now st g with
    | Except.error _ => (st, true)
    | Except.ok st' => (st', true)
  else (st, false)

/-- HTTP response of the /check endpoint: status plus the fields of the
manually built JSON body (currency and source are present only on a
sanctioned hit; errorBody is the plain-text body of an http.Error). -/
structure CheckHttpResponse where
  status : Nat
  sanctioned : Option Bool
  currency : Option String
  source : Option String
  errorBody : Option String
deriving DecidableEq, Repr

/-- The sqlite row lookup in checkAddressHandler: QueryRow + Scan on the
address key.  err == nil exactly when a row was found. -/
def dbLookup (st : EngineState) (addr : String) : Except Unit (String × String) :=
  match st.entries.find? (fun e => e.address = addr) with
  | some e => Except.ok (e.currency, e.source)
  | none => Except.error ()

/-- Go func checkAddressHandler, with the Scan outcome passed in as data
(Except.error covers both a missing row and any other query failure —
the code only tests err == nil).  A missing address parameter yields
400; every other outcome yields 200. -/
def checkAddressHandler (address : String)
    (scan : Except Unit (String × String)) : CheckHttpResponse :=
  if address = "" then ⟨400, none, none, none, some "Missing address parameter"⟩
  else
    match scan with
    | Except.ok (c, s) => ⟨200, some true, some c, some s, none⟩
    | Except.error _ => ⟨200, some false, none, none, none⟩

/-! ## Supporting lemmas for the engine claims -/

/-- Tokens whose DecodeElement failed; the parse loop skips exactly
these. -/
def decodeFailed : XmlTok → Bool
  | XmlTok.featureTypeValue none => true
  | XmlTok.distinctParty none => true
  | _ => false

/-- Everything after the first occurrence of a dash in a character list
(none when there is no dash). -/
def afterFirstDash : List Char → Option (List Char)
  | [] => none
  | c :: rest => if c = '-' then some rest else afterFirstDash rest

/-- Modelled from the spec wording of C5: the currency ticker read as
the whole substring of the label after the first "-" separator,
whitespace-trimmed (none when the label has no "-").  This follows the
claim's words and is compared against learnStep, which follows the
code. -/
def tickerSuffixSpec (label : String) : Option String :=
  (afterFirstDash label.data).map (fun l => goTrim ⟨l⟩)

/-! ## Decomposition of the heuristic pipeline

None of the heuristic rules reads the running scores or the reasons
accumulated so far — each rule's condition depends only on the profile
fields, the clock and the transactions.  The pipeline is therefore the
application of a list of reasons (computed below as ageDelta /
threatDelta / velocityDelta) to the initial state, which the lemmas in
this section prove. -/

/-- Apply a list of reasons to a score state through addRisk, in
order. -/
def applyReasons (s : ScoreState) : List RiskReason → ScoreState
  | [] => s
  | r :: rest => applyReasons (addRisk r.category r.description r.offset s) rest

/-- Sum of the offsets of the reasons of one category. -/
def sumCat (c : String) : List RiskReason → ℚ
  | [] => 0
  | r :: rest => (if r.category = c then r.offset else 0) + sumCat c rest

/-- The reasons the age check appends. -/
def ageDelta (now : ℚ) (firstSeen : Option ℚ) : List RiskReason :=
  match firstSeen with
  | none => []
  | some fs =>
    let hoursOld := now - fs
    if hoursOld > 24 * 365 then [⟨"REPUTATION", "Established History (>1 Year)", -10⟩]
    else if hoursOld < 24 then [⟨"FRAUD", "Freshly Created Wallet (<24h)", 35⟩]
    else []

/-- The reasons the interactions check appends, starting from a given
directThreat flag. -/
def threatDelta (address : String) : List Transaction → Bool → List RiskReason
  | [], _ => []
  | tx :: rest, directThreat =>
    match knownThreats (counterparty address tx) with
    | some label =>
      if directThreat then threatDelta address rest directThreat
      else ⟨"FRAUD", "Direct Interaction with " ++ label, 55⟩ :: threatDelta address rest true
    | none => threatDelta address rest directThreat

/-- The reasons the velocity check appends. -/
def velocityDelta (now : ℚ) (txCount : Int) (firstSeen : Option ℚ) : List RiskReason :=
  if txCount > 0 then
    match firstSeen with
    | some fs =>
      let hoursActive := now - fs
      let hoursActive' := if hoursActive < 1 then 1 else hoursActive
      if (txCount : ℚ) / hoursActive' > 20 then
        [⟨"FRAUD", "High Velocity Behavior (Potential Bot)", 25⟩]
      else []
    | none => []
  else []

/-- All reasons the heuristic section appends, in evaluation order. -/
def heurDelta (now : ℚ) (address : String) (txCount : Int) (firstSeen : Option ℚ)
    (txs : List Transaction) : List RiskReason :=
  ageDelta now firstSeen ++ threatDelta address txs false
    ++ velocityDelta now txCount firstSeen

/-- Scenario B of the spec: unsanctioned, firstSeen 400 days (9600
hours) before the investigation, no transactions ever. -/
def scenarioBProfile : WalletProfile :=
  ⟨"0xabc", "EVM", true, "", false, "0", 0, some 0, none, 0, "", ⟨0, 0, 0⟩, []⟩

/-- Concrete profile used by the C7 witness (mixed-case address, so the
case-insensitive counterparty comparison is exercised). -/
def witnessProfile : WalletProfile :=
  ⟨"0xABC", "EVM", true, "", false, "0", 0, none, none, 0, "", ⟨0, 0, 0⟩, []⟩

/-- Concrete transaction used by the C7 witness: sent from the profile
to the known-threat router (mixed-case). -/
def witnessTx : Transaction :=
  ⟨1, "0xabc", "0xD90E2F925DA726B50C4ED8D0FB90AD053324F31B", "1", "h1"⟩

/-! ## Claim C1 -/

/-- C1: when the Lookup Service call succeeds with sanctioned = true,
Investigate forces riskScore = 100, riskGrade "CRITICAL (Sanctioned)",
all three category scores 100, appends exactly the three
maximum-severity reasons (FRAUD/REPUTATION/LENDING, offset 100 each) and
returns immediately: the output does not depend on firstSeen, txCount or
the transactions, so no heuristic rule contributes. -/
theorem sanction_short_circuit (now : ℚ) (profile : WalletProfile)
    (txs : List Transaction) (resp : EngineResponse)
    (h : resp.sanctioned = true) :
    Investigate now (Except.ok resp) profile txs =
      { profile with
        riskScore := 100
        riskGrade := "CRITICAL (Sanctioned)"
        riskBreakdown := ⟨100, 100, 100⟩
        riskReasons :=
          [⟨"FRAUD", "CRITICAL: " ++ resp.source ++ " Sanctioned Address (" ++ resp.currency ++ ")", 100⟩,
           ⟨"REPUTATION", "Government Blacklisted Entity", 100⟩,
           ⟨"LENDING", "Prohibited: Federal Sanctions", 100⟩] } := by
  simp [Investigate, h]

/-- Witness for C1 at a concrete sanctioned profile with nontrivial
heuristic inputs (fresh wallet, threat transaction): the heuristics are
still ignored. -/
theorem sanction_short_circuit_witness :
    (⟨true, "XBT", "OFAC"⟩ : EngineResponse).sanctioned = true ∧
    Investigate 10 (Except.ok ⟨true, "XBT", "OFAC"⟩)
      ⟨"0xabc", "EVM", true, "", true, "5", 100, some 0, none, 0, "", ⟨0, 0, 0⟩, []⟩
      [⟨5, "0xabc", "0xd90e2f925da726b50c4ed8d0fb90ad053324f31b", "1", "h1"⟩] =
      { (⟨"0xabc", "EVM", true, "", true, "5", 100, some 0, none, 0, "", ⟨0, 0, 0⟩, []⟩ : WalletProfile) with
        riskScore := 100
        riskGrade := "CRITICAL (Sanctioned)"
        riskBreakdown := ⟨100, 100, 100⟩
        riskReasons :=
          [⟨"FRAUD", "CRITICAL: OFAC Sanctioned Address (XBT)", 100⟩,
           ⟨"REPUTATION", "Government Blacklisted Entity", 100⟩,
           ⟨"LENDING", "Prohibited: Federal Sanctions", 100⟩] } := by
  refine ⟨rfl, ?_⟩
  rw [sanction_short_circuit 10 _ _ ⟨true, "XBT", "OFAC"⟩ rfl]
  rfl

/-- Lookup in an association list ignores anything appended after a key
that is already bound. -/
theorem mapLookup_append_left (m₁ m₂ : List (String × String)) (k v : String)
    (h : mapLookup m₁ k = some v) : mapLookup (m₁ ++ m₂) k = some v := by
  induction m₁ with
  | nil => simp [mapLookup] at h
  | cons pr rest ih =>
    unfold mapLookup at h ⊢
    rw [List.cons_append]
    by_cases hp : pr.1 = k
    · rw [List.find?_cons_of_pos _ (by simpa using hp)] at h ⊢
      exact h
    · rw [List.find?_cons_of_neg _ (by simpa using hp)] at h ⊢
      exact ih h

/-- learnStep never changes the binding of a key that is already in the
map. -/
theorem learnStep_preserves (m : List (String × String)) (ft : FeatureTypeValue)
    (k v : String) (h : mapLookup m k = some v) :
    mapLookup (learnStep m ft) k = some v := by
  unfold learnStep
  split
  · split
    · exact h
    · exact mapLookup_append_left m _ k v h
  · exact h

/-- Across any token stream, the parse loop never changes the binding of
a currency-type identifier that is already in the map. -/
theorem procTok_foldl_preserves (now : ℚ) (toks : List XmlTok) :
    ∀ (m : List (String × String)) (es : List SanctionEntry) (k v : String),
      mapLookup m k = some v →
      mapLookup (toks.foldl (procTok now) (m, es)).1 k = some v := by
  induction toks with
  | nil => intro m es k v h; exact h
  | cons t rest ih =>
    intro m es k v h
    rcases t with d | d | _
    · rcases d with _ | ft
      · exact ih m es k v h
      · exact ih _ _ k v (learnStep_preserves m ft k v h)
    · rcases d with _ | p
      · exact ih m es k v h
      · exact ih _ _ k v h
    · exact ih m es k v h

/-! ## Claim C2 -/

/-- C2 counterexample: the claim says a non-2xx HTTP response aborts the
cycle without committing, but downloadAndParseOFAC never inspects the
status code.  On a 404 response with an empty body, the cycle commits:
the stored last_modified changes from absent to the response's header
value. -/
theorem non2xx_response_still_commits :
    refreshCycle 0 ⟨[], none⟩ (some "remote-marker")
        (GetResult.resp ⟨404, "remote-marker", []⟩)
      = (⟨[], some "remote-marker"⟩, true) ∧
    (⟨[], none⟩ : EngineState).lastModified ≠ some "remote-marker" := by
  constructor
  · rfl
  · simp

/-- C2 (amended): only a connection error makes the download fail; in
that case the cycle aborts without committing anything — no entry is
upserted and the stored last_modified is unchanged (the state is
returned untouched, and the loop simply retries on its next tick).  A
non-2xx response is not treated as a failure. -/
theorem conn_error_aborts_without_commit (now : ℚ) (st : EngineState)
    (head : Option String) :
    downloadAndParseOFAC now st GetResult.connError = Except.error () ∧
    refreshCycle now st head GetResult.connError = (st, shouldUpdate st head) := by
  refine ⟨rfl, ?_⟩
  unfold refreshCycle
  by_cases h : shouldUpdate st head <;> simp [h, downloadAndParseOFAC]

/-! ## Claim C3 -/

/-- C3: whenever a response body stream was obtained, the transaction is
committed no matter how the token stream ends — the result is Except.ok,
holding every entry accumulated by the fold over the tokens together
with the response's Last-Modified value; and tokens whose record failed
to decode are exact no-ops of the fold (filtering them out changes
nothing), so decode failures never abort the stream. -/
theorem stream_end_always_commits (now : ℚ) (st : EngineState) (r : HttpResponse) :
    (downloadAndParseOFAC now st (GetResult.resp r) =
      Except.ok ⟨(r.body.foldl (procTok now) (seedCryptoTypeMap, st.entries)).2,
        some r.lastModified⟩) ∧
    (∀ (acc : List (String × String) × List SanctionEntry) (body : List XmlTok),
      body.foldl (procTok now) acc
        = (body.filter (fun t => !decodeFailed t)).foldl (procTok now) acc) := by
  refine ⟨rfl, ?_⟩
  intro acc body
  induction body generalizing acc with
  | nil => rfl
  | cons t rest ih =>
    rcases t with d | d | _
    · rcases d with _ | ft
      · simpa [procTok, decodeFailed] using ih acc
      · simpa [procTok, decodeFailed] using ih (learnStep acc.1 ft, acc.2)
    · rcases d with _ | p
      · simpa [procTok, decodeFailed] using ih acc
      · simpa [procTok, decodeFailed] using ih (acc.1, extractParty now acc.1 acc.2 p)
    · simpa [procTok, decodeFailed] using ih acc

/-! ## Claim C9 -/

/-- C9: after a refresh cycle against a feed whose freshness marker
matches its download header, a second cycle with the unchanged marker
performs no second download (the freshness check reports up to date) and
leaves the whole store state — in particular the entry set — identical. -/
theorem refresh_idempotent (now₁ now₂ : ℚ) (st₀ : EngineState)
    (r : HttpResponse) (g : GetResult) :
    refreshCycle now₂ ((refreshCycle now₁ st₀ (some r.lastModified) (GetResult.resp r)).1)
        (some r.lastModified) g
      = ((refreshCycle now₁ st₀ (some r.lastModified) (GetResult.resp r)).1, false) := by
  unfold refreshCycle downloadAndParseOFAC
  by_cases h : st₀.lastModified.getD "" = r.lastModified
  · simp [shouldUpdate, h]
  · simp [shouldUpdate, h, bne_iff_ne]

/-! ## Claim C10 -/

/-- C10: for a non-empty address parameter the /check handler always
answers 200 — sanctioned true with the row's currency and source exactly
when the row lookup finds an entry for the address, and sanctioned false
with no currency/source and no error body on any failed lookup (missing
row or any other Scan error), never an error status. -/
theorem check_endpoint_fail_open (addr : String) (st : EngineState)
    (h : addr ≠ "") :
    ((checkAddressHandler addr (dbLookup st addr)).status = 200 ∧
      (checkAddressHandler addr (dbLookup st addr)).errorBody = none) ∧
    ((checkAddressHandler addr (dbLookup st addr)).sanctioned = some true ↔
      ∃ e ∈ st.entries, e.address = addr) ∧
    (∀ e : SanctionEntry, st.entries.find? (fun e => e.address = addr) = some e →
      checkAddressHandler addr (dbLookup st addr)
        = ⟨200, some true, some e.currency, some e.source, none⟩) ∧
    (∀ scan : Except Unit (String × String), scan = Except.error () →
      checkAddressHandler addr scan = ⟨200, some false, none, none, none⟩) := by
  cases hfind : st.entries.find? (fun e => e.address = addr) with
  | none =>
    refine ⟨?_, ?_, ?_, ?_⟩
    · simp [checkAddressHandler, dbLookup, hfind, h]
    · simp only [checkAddressHandler, dbLookup, hfind, h, if_neg h]
      constructor
      · intro hcontra; simp at hcontra
      · rintro ⟨e, hmem, haddr⟩
        have := List.find?_eq_none.mp hfind e hmem
        simp [haddr] at this
    · intro e he; simp [hfind] at he
    · rintro scan rfl; simp [checkAddressHandler, h]
  | some e =>
    have hmem : e ∈ st.entries := List.mem_of_find?_eq_some hfind
    have haddr : e.address = addr := by
      have := List.find?_some hfind
      simpa using this
    refine ⟨?_, ?_, ?_, ?_⟩
    · simp [checkAddressHandler, dbLookup, hfind, h]
    · simp only [checkAddressHandler, dbLookup, hfind, h, if_neg h]
      constructor
      · intro _; exact ⟨e, hmem, haddr⟩
      · intro _; rfl
    · intro e' he'
      have he2 : e' = e := (Option.some.inj he').symm
      subst he2
      simp [checkAddressHandler, dbLookup, hfind, h]
    · rintro scan rfl; simp [checkAddressHandler, h]

/-- Witness for C10 at a store holding one entry for the queried
address, and at the same handler fed a failed Scan. -/
theorem check_endpoint_fail_open_witness :
    (checkAddressHandler "0xabc"
        (dbLookup ⟨[⟨"0xabc", "XBT", "OFAC", 0⟩], none⟩ "0xabc")).sanctioned = some true ∧
    checkAddressHandler "0xabc" (Except.error ())
      = ⟨200, some false, none, none, none⟩ := by
  have h := check_endpoint_fail_open "0xabc" ⟨[⟨"0xabc", "XBT", "OFAC", 0⟩], none⟩ (by decide)
  refine ⟨?_, h.2.2.2 (Except.error ()) rfl⟩
  exact h.2.1.mpr ⟨⟨"0xabc", "XBT", "OFAC", 0⟩, by simp, rfl⟩

/-! ## Claim C5 -/

/-- C5 counterexample: on the definition label
"Digital Currency Address - AAA-BBB" (identifier 999, not in the seed),
the code learns the ticker "AAA" — the piece between the first and
second "-" — while the claim's words (substring after the first "-",
trimmed) give "AAA-BBB". -/
theorem currency_after_dash_counterexample :
    mapLookup (learnStep seedCryptoTypeMap
        ⟨"999", "Digital Currency Address - AAA-BBB"⟩) "999" = some "AAA" ∧
    tickerSuffixSpec "Digital Currency Address - AAA-BBB" = some "AAA-BBB" ∧
    goContains "Digital Currency Address - AAA-BBB" "Digital Currency Address" = true ∧
    mapLookup seedCryptoTypeMap "999" = none ∧
    some "AAA" ≠ some "AAA-BBB" := by
  refine ⟨?_, ?_, ?_, ?_, ?_⟩ <;> decide

/-- C5 (amended): a decoded definition record whose label contains
"Digital Currency Address" and whose identifier is not already bound in
the current map (static seed or previously learned) extends the map,
binding the identifier to the whitespace-trimmed piece of the label
between the first "-" and the next "-" (to the end when there is no
second "-"; "UNKNOWN" when the label has no "-" at all); an identifier
that is already bound — in particular every seeded identifier, across a
whole token stream — keeps its binding unchanged. -/
theorem currency_learning_amended (m : List (String × String))
    (ft : FeatureTypeValue)
    (hmark : goContains ft.value "Digital Currency Address" = true) :
    (mapLookup m ft.id = none →
      learnStep m ft = m ++ [(ft.id,
        match splitChar '-' ft.value.data with
        | _ :: second :: _ => goTrim ⟨second⟩
        | _ => "UNKNOWN")]) ∧
    (∀ v, mapLookup m ft.id = some v → learnStep m ft = m) ∧
    (∀ (now : ℚ) (es : List SanctionEntry) (toks : List XmlTok) (k v : String),
      mapLookup seedCryptoTypeMap k = some v →
      mapLookup (toks.foldl (procTok now) (seedCryptoTypeMap, es)).1 k = some v) := by
  refine ⟨?_, ?_, ?_⟩
  · intro hnone
    simp [learnStep, hmark, hnone]
  · intro v hv
    simp [learnStep, hmark, hv]
  · intro now es toks k v hv
    exact procTok_foldl_preserves now toks seedCryptoTypeMap es k v hv

/-- Witness for C5 (amended) at a concrete fresh identifier and a
concrete already-seeded identifier. -/
theorem currency_learning_amended_witness :
    learnStep seedCryptoTypeMap ⟨"999", "Digital Currency Address - AAA-BBB"⟩
      = seedCryptoTypeMap ++ [("999", "AAA")] ∧
    learnStep seedCryptoTypeMap ⟨"344", "Digital Currency Address - FOO"⟩
      = seedCryptoTypeMap := by
  constructor
  · have h := (currency_learning_amended seedCryptoTypeMap
      ⟨"999", "Digital Currency Address - AAA-BBB"⟩ (by decide)).1 (by decide)
    rw [h]
    decide
  · exact (currency_learning_amended seedCryptoTypeMap
      ⟨"344", "Digital Currency Address - FOO"⟩ (by decide)).2.1 "XBT" (by decide)

theorem addRisk_reasons (c d : String) (o : ℚ) (s : ScoreState) :
    (addRisk c d o s).reasons = s.reasons ++ [⟨c, d, o⟩] := by
  unfold addRisk
  split_ifs <;> rfl

theorem addRisk_fraud (c d : String) (o : ℚ) (s : ScoreState) :
    (addRisk c d o s).fraud = s.fraud + (if c = "FRAUD" then o else 0) := by
  unfold addRisk
  split_ifs <;> simp_all

theorem addRisk_rep (c d : String) (o : ℚ) (s : ScoreState) :
    (addRisk c d o s).rep = s.rep + (if c = "REPUTATION" then o else 0) := by
  unfold addRisk
  split_ifs <;> simp_all

theorem addRisk_lend (c d : String) (o : ℚ) (s : ScoreState) :
    (addRisk c d o s).lend = s.lend + (if c = "LENDING" then o else 0) := by
  unfold addRisk
  split_ifs <;> simp_all

theorem applyReasons_append (l₁ l₂ : List RiskReason) :
    ∀ s : ScoreState, applyReasons s (l₁ ++ l₂) = applyReasons (applyReasons s l₁) l₂ := by
  induction l₁ with
  | nil => intro s; rfl
  | cons r rest ih => intro s; exact ih _

theorem applyReasons_reasons (rs : List RiskReason) :
    ∀ s : ScoreState, (applyReasons s rs).reasons = s.reasons ++ rs := by
  induction rs with
  | nil => intro s; simp [applyReasons]
  | cons r rest ih =>
    intro s
    rw [applyReasons, ih, addRisk_reasons]
    simp

theorem applyReasons_fraud (rs : List RiskReason) :
    ∀ s : ScoreState, (applyReasons s rs).fraud = s.fraud + sumCat "FRAUD" rs := by
  induction rs with
  | nil => intro s; simp [applyReasons, sumCat]
  | cons r rest ih =>
    intro s
    rw [applyReasons, ih, addRisk_fraud, sumCat]
    ring

theorem applyReasons_rep (rs : List RiskReason) :
    ∀ s : ScoreState, (applyReasons s rs).rep = s.rep + sumCat "REPUTATION" rs := by
  induction rs with
  | nil => intro s; simp [applyReasons, sumCat]
  | cons r rest ih =>
    intro s
    rw [applyReasons, ih, addRisk_rep, sumCat]
    ring

theorem applyReasons_lend (rs : List RiskReason) :
    ∀ s : ScoreState, (applyReasons s rs).lend = s.lend + sumCat "LENDING" rs := by
  induction rs with
  | nil => intro s; simp [applyReasons, sumCat]
  | cons r rest ih =>
    intro s
    rw [applyReasons, ih, addRisk_lend, sumCat]
    ring

theorem sumCat_append (c : String) (l₁ l₂ : List RiskReason) :
    sumCat c (l₁ ++ l₂) = sumCat c l₁ + sumCat c l₂ := by
  induction l₁ with
  | nil => simp [sumCat]
  | cons r rest ih =>
    simp only [List.cons_append, sumCat, List.append_eq, ih]
    ring

theorem ageCheck_eq (now : ℚ) (fs : Option ℚ) (s : ScoreState) :
    ageCheck now fs s = applyReasons s (ageDelta now fs) := by
  unfold ageCheck ageDelta
  cases fs with
  | none => rfl
  | some t =>
    dsimp only
    split_ifs <;> rfl

theorem threatFold_eq (address : String) :
    ∀ (txs : List Transaction) (flag : Bool) (s : ScoreState),
      (threatFold address txs flag s).2 = applyReasons s (threatDelta address txs flag) := by
  intro txs
  induction txs with
  | nil => intro flag s; rfl
  | cons tx rest ih =>
    intro flag s
    unfold threatFold threatDelta
    cases hk : knownThreats (counterparty address tx) with
    | none => exact ih flag s
    | some label =>
      cases flag with
      | true => simpa using ih true s
      | false => simpa using ih true (addRisk "FRAUD" ("Direct Interaction with " ++ label) 55 s)

theorem velocityCheck_eq (now : ℚ) (tc : Int) (fs : Option ℚ) (s : ScoreState) :
    velocityCheck now tc fs s = applyReasons s (velocityDelta now tc fs) := by
  unfold velocityCheck velocityDelta
  by_cases htc : tc > 0
  · simp only [htc, if_true]
    cases fs with
    | none => rfl
    | some t =>
      dsimp only
      split_ifs <;> rfl
  · simp only [htc, if_false]
    rfl

theorem heuristics_eq (now : ℚ) (address : String) (tc : Int) (fs : Option ℚ)
    (txs : List Transaction) (s : ScoreState) :
    heuristics now address tc fs txs s
      = applyReasons s (heurDelta now address tc fs txs) := by
  unfold heuristics heurDelta
  rw [ageCheck_eq, threatFold_eq, velocityCheck_eq, applyReasons_append, applyReasons_append]

theorem ageDelta_cases (now : ℚ) (fs : Option ℚ) :
    ageDelta now fs = [] ∨
    ageDelta now fs = [⟨"REPUTATION", "Established History (>1 Year)", -10⟩] ∨
    ageDelta now fs = [⟨"FRAUD", "Freshly Created Wallet (<24h)", 35⟩] := by
  unfold ageDelta
  cases fs with
  | none => exact Or.inl rfl
  | some t =>
    dsimp only
    split_ifs <;> tauto

theorem threatDelta_true_nil (address : String) :
    ∀ txs : List Transaction, threatDelta address txs true = [] := by
  intro txs
  induction txs with
  | nil => rfl
  | cons tx rest ih =>
    unfold threatDelta
    cases knownThreats (counterparty address tx) with
    | none => exact ih
    | some label => simpa using ih

theorem threatDelta_false_eq (address : String) :
    ∀ txs : List Transaction,
      threatDelta address txs false =
        match txs.find? (fun tx => (knownThreats (counterparty address tx)).isSome) with
        | none => []
        | some tx =>
          [⟨"FRAUD",
            "Direct Interaction with " ++ ((knownThreats (counterparty address tx)).getD ""),
            55⟩] := by
  intro txs
  induction txs with
  | nil => rfl
  | cons tx rest ih =>
    unfold threatDelta
    cases hk : knownThreats (counterparty address tx) with
    | none =>
      rw [List.find?_cons_of_neg _ (by simp [hk])]
      exact ih
    | some label =>
      rw [List.find?_cons_of_pos _ (by simp [hk])]
      simp [hk, threatDelta_true_nil]

theorem threatDelta_false_cases (address : String) (txs : List Transaction) :
    threatDelta address txs false = [] ∨
    ∃ d : String, threatDelta address txs false = [⟨"FRAUD", d, 55⟩] := by
  rw [threatDelta_false_eq]
  cases txs.find? (fun tx => (knownThreats (counterparty address tx)).isSome) with
  | none => exact Or.inl rfl
  | some tx => exact Or.inr ⟨_, rfl⟩

theorem velocityDelta_cases (now : ℚ) (tc : Int) (fs : Option ℚ) :
    velocityDelta now tc fs = [] ∨
    velocityDelta now tc fs = [⟨"FRAUD", "High Velocity Behavior (Potential Bot)", 25⟩] := by
  unfold velocityDelta
  by_cases htc : tc > 0
  · simp only [htc, if_true]
    cases fs with
    | none => exact Or.inl rfl
    | some t =>
      dsimp only
      split_ifs <;> tauto
  · simp only [htc, if_false]
    tauto

theorem investigate_ok_not_sanctioned (now : ℚ) (p : WalletProfile)
    (txs : List Transaction) (c s : String) :
    Investigate now (Except.ok ⟨false, c, s⟩) p txs
      = finalize p (applyReasons ⟨0, 0, 0, []⟩
          (heurDelta now p.address p.txCount p.firstSeen txs)) := by
  simp [Investigate, heuristics_eq]

theorem investigate_engine_down (now : ℚ) (p : WalletProfile) (txs : List Transaction) :
    Investigate now (Except.error ()) p txs
      = finalize
          { p with validationDetails := p.validationDetails ++ " | [Warning: Sanctions DB Offline]" }
          (applyReasons ⟨0, 0, 0, [sysReason]⟩
            (heurDelta now p.address p.txCount p.firstSeen txs)) := by
  simp [Investigate, heuristics_eq]

theorem finalize_riskScore (p : WalletProfile) (s : ScoreState) :
    (finalize p s).riskScore
      = round2 (clamp s.fraud 0 100 * 0.5 + clamp s.rep 0 100 * 0.3
          + clamp s.lend 0 100 * 0.2) := rfl

theorem finalize_riskGrade (p : WalletProfile) (s : ScoreState) :
    (finalize p s).riskGrade
      = gradeOf (clamp s.fraud 0 100 * 0.5 + clamp s.rep 0 100 * 0.3
          + clamp s.lend 0 100 * 0.2) := rfl

theorem finalize_breakdown (p : WalletProfile) (s : ScoreState) :
    (finalize p s).riskBreakdown
      = ⟨round2 (clamp s.fraud 0 100), round2 (clamp s.rep 0 100),
          round2 (clamp s.lend 0 100)⟩ := rfl

theorem finalize_reasons (p : WalletProfile) (s : ScoreState) :
    (finalize p s).riskReasons = s.reasons := rfl

theorem heurDelta_fraud_cases (now : ℚ) (address : String) (tc : Int)
    (fs : Option ℚ) (txs : List Transaction) :
    sumCat "FRAUD" (heurDelta now address tc fs txs) = 0 ∨
    sumCat "FRAUD" (heurDelta now address tc fs txs) = 25 ∨
    sumCat "FRAUD" (heurDelta now address tc fs txs) = 35 ∨
    sumCat "FRAUD" (heurDelta now address tc fs txs) = 55 ∨
    sumCat "FRAUD" (heurDelta now address tc fs txs) = 60 ∨
    sumCat "FRAUD" (heurDelta now address tc fs txs) = 80 ∨
    sumCat "FRAUD" (heurDelta now address tc fs txs) = 90 ∨
    sumCat "FRAUD" (heurDelta now address tc fs txs) = 115 := by
  unfold heurDelta
  rw [sumCat_append, sumCat_append]
  rcases ageDelta_cases now fs with h1 | h1 | h1 <;>
    rcases threatDelta_false_cases address txs with h2 | ⟨d, h2⟩ <;>
    rcases velocityDelta_cases now tc fs with h3 | h3 <;>
    rw [h1, h2, h3] <;> simp [sumCat] <;> norm_num

theorem heurDelta_rep_cases (now : ℚ) (address : String) (tc : Int)
    (fs : Option ℚ) (txs : List Transaction) :
    sumCat "REPUTATION" (heurDelta now address tc fs txs) = 0 ∨
    sumCat "REPUTATION" (heurDelta now address tc fs txs) = -10 := by
  unfold heurDelta
  rw [sumCat_append, sumCat_append]
  rcases ageDelta_cases now fs with h1 | h1 | h1 <;>
    rcases threatDelta_false_cases address txs with h2 | ⟨d, h2⟩ <;>
    rcases velocityDelta_cases now tc fs with h3 | h3 <;>
    rw [h1, h2, h3] <;> simp [sumCat]

theorem heurDelta_lend_zero (now : ℚ) (address : String) (tc : Int)
    (fs : Option ℚ) (txs : List Transaction) :
    sumCat "LENDING" (heurDelta now address tc fs txs) = 0 := by
  unfold heurDelta
  rw [sumCat_append, sumCat_append]
  rcases ageDelta_cases now fs with h1 | h1 | h1 <;>
    rcases threatDelta_false_cases address txs with h2 | ⟨d, h2⟩ <;>
    rcases velocityDelta_cases now tc fs with h3 | h3 <;>
    rw [h1, h2, h3] <;> simp [sumCat]

theorem invest_unsanc_shape (now : ℚ) (p : WalletProfile) (txs : List Transaction)
    (er : Except Unit EngineResponse)
    (h : er = Except.error () ∨ ∃ c s, er = Except.ok ⟨false, c, s⟩) :
    ∃ f r : ℚ,
      (f = 0 ∨ f = 25 ∨ f = 35 ∨ f = 55 ∨ f = 60 ∨ f = 80 ∨ f = 90 ∨ f = 115) ∧
      (r = 0 ∨ r = -10) ∧
      (Investigate now er p txs).riskScore
        = round2 (clamp f 0 100 * 0.5 + clamp r 0 100 * 0.3 + clamp 0 0 100 * 0.2) ∧
      (Investigate now er p txs).riskGrade
        = gradeOf (clamp f 0 100 * 0.5 + clamp r 0 100 * 0.3 + clamp 0 0 100 * 0.2) ∧
      (Investigate now er p txs).riskBreakdown
        = ⟨round2 (clamp f 0 100), round2 (clamp r 0 100), round2 (clamp 0 0 100)⟩ := by
  refine ⟨sumCat "FRAUD" (heurDelta now p.address p.txCount p.firstSeen txs),
    sumCat "REPUTATION" (heurDelta now p.address p.txCount p.firstSeen txs),
    heurDelta_fraud_cases now p.address p.txCount p.firstSeen txs,
    heurDelta_rep_cases now p.address p.txCount p.firstSeen txs, ?_, ?_, ?_⟩ <;>
  rcases h with rfl | ⟨c, s, rfl⟩ <;>
    simp only [investigate_engine_down, investigate_ok_not_sanctioned,
      finalize_riskScore, finalize_riskGrade, finalize_breakdown,
      applyReasons_fraud, applyReasons_rep, applyReasons_lend,
      heurDelta_lend_zero, zero_add, add_zero]

/-- Helper shared by C4 and C7: on any unsanctioned engine outcome, the
reasons trail is the SYSTEM prefix (present exactly on engine failure)
followed by the heuristic reasons. -/
theorem invest_unsanc_reasons (now : ℚ) (p : WalletProfile) (txs : List Transaction)
    (er : Except Unit EngineResponse)
    (h : er = Except.error () ∨ ∃ c s, er = Except.ok ⟨false, c, s⟩) :
    ∃ pre : List RiskReason, (pre = [] ∨ pre = [sysReason]) ∧
      (Investigate now er p txs).riskReasons
        = pre ++ heurDelta now p.address p.txCount p.firstSeen txs := by
  rcases h with rfl | ⟨c, s, rfl⟩
  · refine ⟨[sysReason], Or.inr rfl, ?_⟩
    rw [investigate_engine_down, finalize_reasons, applyReasons_reasons]
  · refine ⟨[], Or.inl rfl, ?_⟩
    rw [investigate_ok_not_sanctioned, finalize_reasons, applyReasons_reasons]

/-- ratFloor agrees with the mathematical floor on rationals. -/
theorem ratFloor_eq_floor (q : ℚ) : ratFloor q = ⌊q⌋ := by
  unfold ratFloor
  rw [Rat.floor_def]
  exact Int.fdiv_eq_ediv q.num (Int.natCast_nonneg q.den)

/-- goRound is the identity on integers. -/
theorem goRound_intCast (k : ℤ) : goRound (k : ℚ) = k := by
  unfold goRound
  rw [ratFloor_eq_floor, ratFloor_eq_floor]
  have hhalf : ⌊(1 / 2 : ℚ)⌋ = 0 := by
    rw [Int.floor_eq_zero_iff]
    constructor <;> norm_num
  by_cases hk : (0 : ℚ) ≤ (k : ℚ)
  · rw [if_pos hk, Int.floor_int_add, hhalf, add_zero]
  · rw [if_neg hk]
    rw [show -(k : ℚ) + 1 / 2 = ((-k : ℤ) : ℚ) + 1 / 2 by push_cast; ring,
      Int.floor_int_add, hhalf, add_zero, neg_neg]

/-- Rounding to two decimals leaves a value with at most two decimals
unchanged. -/
theorem round2_eq_self (w : ℚ) (k : ℤ) (hw : w * 100 = (k : ℚ)) : round2 w = w := by
  unfold round2
  rw [hw, goRound_intCast, ← hw]
  exact mul_div_cancel_right₀ w (by norm_num)

/-- round2 is the identity on integers. -/
theorem round2_intCast (k : ℤ) : round2 ((k : ℚ)) = (k : ℚ) :=
  round2_eq_self _ (k * 100) (by push_cast; ring)

/-- round2 at zero. -/
theorem round2_zero : round2 (0 : ℚ) = 0 := by
  simpa using round2_intCast 0

/-- round2 is the identity on any rational that is an integer. -/
theorem round2_isInt (q : ℚ) (h : ∃ k : ℤ, q = (k : ℚ)) : round2 q = q := by
  obtain ⟨k, rfl⟩ := h
  exact round2_intCast k

/-- clamp maps integers to integers. -/
theorem clamp_isInt (q lo hi : ℚ) (hq : ∃ k : ℤ, q = (k : ℚ))
    (hlo : ∃ k : ℤ, lo = (k : ℚ)) (hhi : ∃ k : ℤ, hi = (k : ℚ)) :
    ∃ k : ℤ, clamp q lo hi = (k : ℚ) := by
  unfold clamp
  split_ifs <;> assumption

/-- clamp lands in the target interval. -/
theorem clamp_mem (q lo hi : ℚ) (h : lo ≤ hi) :
    lo ≤ clamp q lo hi ∧ clamp q lo hi ≤ hi := by
  unfold clamp
  split_ifs with h1 h2 <;> constructor <;> linarith

/-- The weighted 0.5/0.3/0.2 combination of integer-valued category
scores has at most two decimals, so round2 leaves it unchanged. -/
theorem round2_weighted (a b c : ℚ) (ha : ∃ k : ℤ, a = (k : ℚ))
    (hb : ∃ k : ℤ, b = (k : ℚ)) (hc : ∃ k : ℤ, c = (k : ℚ)) :
    round2 (a * 0.5 + b * 0.3 + c * 0.2) = a * 0.5 + b * 0.3 + c * 0.2 := by
  obtain ⟨ka, rfl⟩ := ha
  obtain ⟨kb, rfl⟩ := hb
  obtain ⟨kc, rfl⟩ := hc
  refine round2_eq_self _ (ka * 50 + kb * 30 + kc * 20) ?_
  push_cast
  ring

/-- The grading thresholds partition the whole score range: each grade
is emitted exactly on its interval, so there is no overlap and no gap. -/
theorem gradeOf_thresholds (q : ℚ) :
    (gradeOf q = "EXCELLENT (Safe)" ↔ q < 10) ∧
    (gradeOf q = "LOW (Neutral)" ↔ 10 ≤ q ∧ q < 35) ∧
    (gradeOf q = "WARNING (Elevated)" ↔ 35 ≤ q ∧ q < 60) ∧
    (gradeOf q = "FAILING (High Risk)" ↔ 60 ≤ q) := by
  unfold gradeOf
  split_ifs with h1 h2 h3 <;>
    refine ⟨⟨fun hx => ?_, fun hx => ?_⟩, ⟨fun hx => ?_, fun hx => ?_⟩,
      ⟨fun hx => ?_, fun hx => ?_⟩, ⟨fun hx => ?_, fun hx => ?_⟩⟩ <;>
    first
      | rfl
      | linarith [hx]
      | exact absurd hx (by decide)
      | (exfalso; linarith [hx])
      | (exfalso; linarith [hx.1, hx.2])
      | exact ⟨by linarith, by linarith⟩

/-! ## Claim C4 -/

/-- C4: when the Lookup Service call fails, Investigate still returns a
complete result (it is a total function): the reasons trail is exactly
one SYSTEM reason — with offset 0, recording the skipped check — in
front of precisely the reasons the heuristic rules produce on a
successful unsanctioned lookup, and the score, grade and breakdown are
identical to that heuristic-only result. -/
theorem fail_open_lookup (now : ℚ) (p : WalletProfile) (txs : List Transaction) :
    (Investigate now (Except.error ()) p txs).riskReasons
      = sysReason :: (Investigate now (Except.ok ⟨false, "", ""⟩) p txs).riskReasons ∧
    (Investigate now (Except.error ()) p txs).riskReasons.countP
        (fun rr => rr.category == "SYSTEM") = 1 ∧
    sysReason.offset = 0 ∧
    (Investigate now (Except.error ()) p txs).riskScore
      = (Investigate now (Except.ok ⟨false, "", ""⟩) p txs).riskScore ∧
    (Investigate now (Except.error ()) p txs).riskGrade
      = (Investigate now (Except.ok ⟨false, "", ""⟩) p txs).riskGrade ∧
    (Investigate now (Except.error ()) p txs).riskBreakdown
      = (Investigate now (Except.ok ⟨false, "", ""⟩) p txs).riskBreakdown := by
  rw [investigate_engine_down, investigate_ok_not_sanctioned]
  refine ⟨?_, ?_, rfl, ?_, ?_, ?_⟩
  · rw [finalize_reasons, finalize_reasons, applyReasons_reasons, applyReasons_reasons]
    rfl
  · rw [finalize_reasons, applyReasons_reasons]
    show List.countP _ ([sysReason] ++ heurDelta now p.address p.txCount p.firstSeen txs) = 1
    rw [List.countP_append]
    have hone : List.countP (fun rr => rr.category == "SYSTEM") [sysReason] = 1 := by decide
    rw [hone]
    have hzero : List.countP (fun rr => rr.category == "SYSTEM")
        (heurDelta now p.address p.txCount p.firstSeen txs) = 0 := by
      unfold heurDelta
      rw [List.countP_append, List.countP_append]
      rcases ageDelta_cases now p.firstSeen with h1 | h1 | h1 <;>
        rcases threatDelta_false_cases p.address txs with h2 | ⟨d, h2⟩ <;>
        rcases velocityDelta_cases now p.txCount p.firstSeen with h3 | h3 <;>
        rw [h1, h2, h3] <;> simp [List.countP_cons]
    rw [hzero]
  · rw [finalize_riskScore, finalize_riskScore]
    simp only [applyReasons_fraud, applyReasons_rep, applyReasons_lend]
  · rw [finalize_riskGrade, finalize_riskGrade]
    simp only [applyReasons_fraud, applyReasons_rep, applyReasons_lend]
  · rw [finalize_breakdown, finalize_breakdown]
    simp only [applyReasons_fraud, applyReasons_rep, applyReasons_lend]

/-! ## Claim C6 -/

/-- C6: on every unsanctioned investigation (successful lookup with
sanctioned false, or failed lookup), the emitted grade is the one the
fixed 10/35/60 thresholds assign to the emitted combined score; the
emitted score is the weighted sum 0.5 fraud + 0.3 reputation + 0.2
lending of the emitted (clamped) category scores rounded to two
decimals; and the thresholds are exhaustive and mutually exclusive over
all scores. -/
theorem grade_determined_by_score (now : ℚ) (p : WalletProfile)
    (txs : List Transaction) (er : Except Unit EngineResponse)
    (h : er = Except.error () ∨ ∃ c s, er = Except.ok ⟨false, c, s⟩) :
    (Investigate now er p txs).riskGrade = gradeOf (Investigate now er p txs).riskScore ∧
    (Investigate now er p txs).riskScore
      = round2 ((Investigate now er p txs).riskBreakdown.fraud * 0.5
          + (Investigate now er p txs).riskBreakdown.reputation * 0.3
          + (Investigate now er p txs).riskBreakdown.lending * 0.2) ∧
    (∀ q : ℚ,
      (gradeOf q = "EXCELLENT (Safe)" ↔ q < 10) ∧
      (gradeOf q = "LOW (Neutral)" ↔ 10 ≤ q ∧ q < 35) ∧
      (gradeOf q = "WARNING (Elevated)" ↔ 35 ≤ q ∧ q < 60) ∧
      (gradeOf q = "FAILING (High Risk)" ↔ 60 ≤ q)) := by
  obtain ⟨f, r, hf, hr, hS, hG, hB⟩ := invest_unsanc_shape now p txs er h
  have hfi : ∃ k : ℤ, f = (k : ℚ) := by
    rcases hf with rfl | rfl | rfl | rfl | rfl | rfl | rfl | rfl
    exacts [⟨0, by norm_num⟩, ⟨25, by norm_num⟩, ⟨35, by norm_num⟩, ⟨55, by norm_num⟩,
      ⟨60, by norm_num⟩, ⟨80, by norm_num⟩, ⟨90, by norm_num⟩, ⟨115, by norm_num⟩]
  have hri : ∃ k : ℤ, r = (k : ℚ) := by
    rcases hr with rfl | rfl
    exacts [⟨0, by norm_num⟩, ⟨-10, by norm_num⟩]
  have hcf := clamp_isInt f 0 100 hfi ⟨0, by norm_num⟩ ⟨100, by norm_num⟩
  have hcr := clamp_isInt r 0 100 hri ⟨0, by norm_num⟩ ⟨100, by norm_num⟩
  have hc0 := clamp_isInt 0 0 100 ⟨0, by norm_num⟩ ⟨0, by norm_num⟩ ⟨100, by norm_num⟩
  refine ⟨?_, ?_, gradeOf_thresholds⟩
  · rw [hS, hG, round2_weighted _ _ _ hcf hcr hc0]
  · rw [hS, hB]
    dsimp only
    rw [round2_isInt _ hcf, round2_isInt _ hcr, round2_isInt _ hc0]

/-- Witness for C6 on a concrete unsanctioned run (engine reachable,
fresh wallet: age under 24 hours). -/
theorem grade_determined_by_score_witness :
    (Investigate 1 (Except.ok ⟨false, "", ""⟩) scenarioBProfile []).riskGrade
      = gradeOf (Investigate 1 (Except.ok ⟨false, "", ""⟩) scenarioBProfile []).riskScore ∧
    (Investigate 1 (Except.ok ⟨false, "", ""⟩) scenarioBProfile []).riskScore
      = round2 ((Investigate 1 (Except.ok ⟨false, "", ""⟩) scenarioBProfile []).riskBreakdown.fraud * 0.5
          + (Investigate 1 (Except.ok ⟨false, "", ""⟩) scenarioBProfile []).riskBreakdown.reputation * 0.3
          + (Investigate 1 (Except.ok ⟨false, "", ""⟩) scenarioBProfile []).riskBreakdown.lending * 0.2) := by
  have h := grade_determined_by_score 1 scenarioBProfile [] (Except.ok ⟨false, "", ""⟩)
    (Or.inr ⟨"", "", rfl⟩)
  exact ⟨h.1, h.2.1⟩

/-! ## Claim C7 -/

/-- C7: the known-threat rule fires at most once — every unsanctioned
investigation emits at most one reason with offset 55 (no other rule
uses that offset), however many transactions match; and when some
transaction does match, the single emitted threat reason carries the
label of the first matching transaction in list order. -/
theorem threat_offset_applied_once (now : ℚ) (p : WalletProfile)
    (txs : List Transaction) (er : Except Unit EngineResponse)
    (h : er = Except.error () ∨ ∃ c s, er = Except.ok ⟨false, c, s⟩) :
    (Investigate now er p txs).riskReasons.countP
        (fun rr => decide (rr.offset = 55)) ≤ 1 ∧
    (∀ tx₀ : Transaction,
      txs.find? (fun tx => (knownThreats (counterparty p.address tx)).isSome) = some tx₀ →
      ∀ label : String, knownThreats (counterparty p.address tx₀) = some label →
        (Investigate now er p txs).riskReasons.countP
          (fun rr => decide (rr = ⟨"FRAUD", "Direct Interaction with " ++ label, 55⟩)) = 1) := by
  obtain ⟨pre, hpre, hreasons⟩ := invest_unsanc_reasons now p txs er h
  constructor
  · rw [hreasons]
    rw [List.countP_append]
    unfold heurDelta
    rw [List.countP_append, List.countP_append]
    have hp : List.countP (fun rr => decide (rr.offset = 55)) pre = 0 := by
      rcases hpre with rfl | rfl <;> decide
    rcases ageDelta_cases now p.firstSeen with h1 | h1 | h1 <;>
      rcases threatDelta_false_cases p.address txs with h2 | ⟨d, h2⟩ <;>
      rcases velocityDelta_cases now p.txCount p.firstSeen with h3 | h3 <;>
      rw [h1, h2, h3, hp] <;> simp [List.countP_cons] <;> norm_num
  · intro tx₀ hfind label hlabel
    rw [hreasons, List.countP_append]
    unfold heurDelta
    rw [List.countP_append, List.countP_append]
    have hthr : threatDelta p.address txs false
        = [⟨"FRAUD", "Direct Interaction with " ++ label, 55⟩] := by
      rw [threatDelta_false_eq, hfind]
      dsimp only
      rw [hlabel, Option.getD_some]
    have hp : List.countP
        (fun rr => decide (rr = ⟨"FRAUD", "Direct Interaction with " ++ label, 55⟩)) pre = 0 := by
      rcases hpre with rfl | rfl
      · rfl
      · simp [sysReason, List.countP_cons]
    rw [hthr, hp]
    rcases ageDelta_cases now p.firstSeen with h1 | h1 | h1 <;>
      rcases velocityDelta_cases now p.txCount p.firstSeen with h3 | h3 <;>
      rw [h1, h3] <;> simp [List.countP_cons, RiskReason.mk.injEq] <;> norm_num

/-- Witness for C7: two copies of the same threat transaction still
yield a single threat reason, whose label is resolved through the
case-insensitive counterparty lookup. -/
theorem threat_offset_applied_once_witness :
    (Investigate 100 (Except.ok ⟨false, "", ""⟩) witnessProfile
        [witnessTx, witnessTx]).riskReasons.countP
      (fun rr => decide (rr.offset = 55)) ≤ 1 ∧
    (Investigate 100 (Except.ok ⟨false, "", ""⟩) witnessProfile
        [witnessTx, witnessTx]).riskReasons.countP
      (fun rr => decide (rr
        = ⟨"FRAUD", "Direct Interaction with " ++ "Tornado Cash Router", 55⟩)) = 1 := by
  have h := threat_offset_applied_once 100 witnessProfile [witnessTx, witnessTx]
    (Except.ok ⟨false, "", ""⟩) (Or.inr ⟨"", "", rfl⟩)
  exact ⟨h.1, h.2 witnessTx (by decide) "Tornado Cash Router" (by decide)⟩

/-- Evaluation of the whole investigation on Scenario B of the spec:
only the establishment offset (REPUTATION -10) fires, the breakdown is
all zero, the combined score 0 and the grade EXCELLENT. -/
theorem scenarioB_eval :
    (Investigate 9600 (Except.ok ⟨false, "", ""⟩) scenarioBProfile []).riskReasons
      = [⟨"REPUTATION", "Established History (>1 Year)", -10⟩] ∧
    (Investigate 9600 (Except.ok ⟨false, "", ""⟩) scenarioBProfile []).riskBreakdown
      = ⟨0, 0, 0⟩ ∧
    (Investigate 9600 (Except.ok ⟨false, "", ""⟩) scenarioBProfile []).riskScore = 0 ∧
    (Investigate 9600 (Except.ok ⟨false, "", ""⟩) scenarioBProfile []).riskGrade
      = "EXCELLENT (Safe)" := by
  have hpath := investigate_ok_not_sanctioned 9600 scenarioBProfile [] "" ""
  have hHD : heurDelta 9600 scenarioBProfile.address scenarioBProfile.txCount
      scenarioBProfile.firstSeen []
      = [⟨"REPUTATION", "Established History (>1 Year)", -10⟩] := by
    show heurDelta 9600 "0xabc" 0 (some 0) [] = _
    unfold heurDelta ageDelta velocityDelta
    dsimp only
    rw [if_pos (by norm_num : (9600 : ℚ) - 0 > 24 * 365),
      if_neg (by norm_num : ¬((0 : ℤ) > 0))]
    rfl
  have hAR : applyReasons ⟨0, 0, 0, []⟩
      [(⟨"REPUTATION", "Established History (>1 Year)", -10⟩ : RiskReason)]
      = ⟨0, -10, 0, [⟨"REPUTATION", "Established History (>1 Year)", -10⟩]⟩ := by
    show addRisk "REPUTATION" "Established History (>1 Year)" (-10) ⟨0, 0, 0, []⟩ = _
    unfold addRisk
    rw [if_neg (by decide : ¬("REPUTATION" = "FRAUD")), if_pos rfl]
    norm_num
  have hclamp0 : clamp (0 : ℚ) 0 100 = 0 := by norm_num [clamp]
  have hclampneg : clamp (-10 : ℚ) 0 100 = 0 := by norm_num [clamp]
  have hzero : (0 : ℚ) * 0.5 + 0 * 0.3 + 0 * 0.2 = 0 := by norm_num
  refine ⟨?_, ?_, ?_, ?_⟩
  · rw [hpath, hHD, hAR, finalize_reasons]
  · rw [hpath, hHD, hAR, finalize_breakdown]
    dsimp only
    rw [hclamp0, hclampneg, round2_zero]
  · rw [hpath, hHD, hAR, finalize_riskScore]
    dsimp only
    rw [hclamp0, hclampneg, hzero, round2_zero]
  · rw [hpath, hHD, hAR, finalize_riskGrade]
    dsimp only
    rw [hclamp0, hclampneg, hzero]
    unfold gradeOf
    rw [if_pos (by norm_num : (0 : ℚ) < 10)]

/-! ## Claim C8 -/

/-- C8: on every unsanctioned investigation, each emitted category score
lies in [0, 100] (each category is clamped on its own before the scores
are combined); and in Scenario B — only the REPUTATION -10 establishment
offset fires — the emitted breakdown is (0,0,0), the combined score 0
and the grade "EXCELLENT (Safe)". -/
theorem category_scores_clamped :
    (∀ (now : ℚ) (p : WalletProfile) (txs : List Transaction)
        (er : Except Unit EngineResponse),
      (er = Except.error () ∨ ∃ c s, er = Except.ok ⟨false, c, s⟩) →
      0 ≤ (Investigate now er p txs).riskBreakdown.fraud ∧
      (Investigate now er p txs).riskBreakdown.fraud ≤ 100 ∧
      0 ≤ (Investigate now er p txs).riskBreakdown.reputation ∧
      (Investigate now er p txs).riskBreakdown.reputation ≤ 100 ∧
      0 ≤ (Investigate now er p txs).riskBreakdown.lending ∧
      (Investigate now er p txs).riskBreakdown.lending ≤ 100) ∧
    (Investigate 9600 (Except.ok ⟨false, "", ""⟩) scenarioBProfile []).riskReasons
      = [⟨"REPUTATION", "Established History (>1 Year)", -10⟩] ∧
    (Investigate 9600 (Except.ok ⟨false, "", ""⟩) scenarioBProfile []).riskBreakdown
      = ⟨0, 0, 0⟩ ∧
    (Investigate 9600 (Except.ok ⟨false, "", ""⟩) scenarioBProfile []).riskScore = 0 ∧
    (Investigate 9600 (Except.ok ⟨false, "", ""⟩) scenarioBProfile []).riskGrade
      = "EXCELLENT (Safe)" := by
  refine ⟨?_, scenarioB_eval.1, scenarioB_eval.2.1, scenarioB_eval.2.2.1,
    scenarioB_eval.2.2.2⟩
  intro now p txs er h
  obtain ⟨f, r, hf, hr, hS, hG, hB⟩ := invest_unsanc_shape now p txs er h
  have hfi : ∃ k : ℤ, f = (k : ℚ) := by
    rcases hf with rfl | rfl | rfl | rfl | rfl | rfl | rfl | rfl
    exacts [⟨0, by norm_num⟩, ⟨25, by norm_num⟩, ⟨35, by norm_num⟩, ⟨55, by norm_num⟩,
      ⟨60, by norm_num⟩, ⟨80, by norm_num⟩, ⟨90, by norm_num⟩, ⟨115, by norm_num⟩]
  have hri : ∃ k : ℤ, r = (k : ℚ) := by
    rcases hr with rfl | rfl
    exacts [⟨0, by norm_num⟩, ⟨-10, by norm_num⟩]
  have hcf := clamp_isInt f 0 100 hfi ⟨0, by norm_num⟩ ⟨100, by norm_num⟩
  have hcr := clamp_isInt r 0 100 hri ⟨0, by norm_num⟩ ⟨100, by norm_num⟩
  have hc0 := clamp_isInt 0 0 100 ⟨0, by norm_num⟩ ⟨0, by norm_num⟩ ⟨100, by norm_num⟩
  rw [hB]
  dsimp only
  rw [round2_isInt _ hcf, round2_isInt _ hcr, round2_isInt _ hc0]
  have c1 := clamp_mem f 0 100 (by norm_num)
  have c2 := clamp_mem r 0 100 (by norm_num)
  have c3 := clamp_mem 0 0 100 (by norm_num)
  exact ⟨c1.1, c1.2, c2.1, c2.2, c3.1, c3.2⟩

/-- Witness for C8's clamping part at a concrete failed-lookup run. -/
theorem category_scores_clamped_witness :
    0 ≤ (Investigate 0 (Except.error ()) scenarioBProfile []).riskBreakdown.fraud ∧
    (Investigate 0 (Except.error ()) scenarioBProfile []).riskBreakdown.fraud ≤ 100 ∧
    0 ≤ (Investigate 0 (Except.error ()) scenarioBProfile []).riskBreakdown.reputation ∧
    (Investigate 0 (Except.error ()) scenarioBProfile []).riskBreakdown.reputation ≤ 100 ∧
    0 ≤ (Investigate 0 (Except.error ()) scenarioBProfile []).riskBreakdown.lending ∧
    (Investigate 0 (Except.error ()) scenarioBProfile []).riskBreakdown.lending ≤ 100 :=
  category_scores_clamped.1 0 scenarioBProfile [] (Except.error ()) (Or.inl rfl)

end CryptoProfiler
